import Mathlib

/-!
Shallow embedding of the InventoryTrackerSkill server (src/server.js,
src/api/inventory/add.js, src/api/inventory/remove.js, src/db.js).

Records are per-owner JS objects mapping composite keys to item entries;
we model them as association lists with unique keys.  JS numbers are
modelled as integers extended with NaN, since `parseInt` on a non-numeric
string yields NaN and the handlers propagate it through `+=`/`-=`.
-/

set_option autoImplicit false

namespace InvTrack

/-- A JS number as it occurs in the inventory code: an integer or NaN. -/
inductive JsNum where
  | int (n : Int)
  | nan
deriving DecidableEq, Repr

/-- JS `+` on numbers: NaN is absorbing. -/
def JsNum.add : JsNum → JsNum → JsNum
  | .int a, .int b => .int (a + b)
  | _, _ => .nan

/-- JS `-` on numbers: NaN is absorbing. -/
def JsNum.sub : JsNum → JsNum → JsNum
  | .int a, .int b => .int (a - b)
  | _, _ => .nan

/-- JS comparison `x <= 0`; any comparison with NaN is false. -/
def JsNum.le0 : JsNum → Bool
  | .int a => decide (a ≤ 0)
  | .nan => false

/-- Value of a list of decimal digit characters. -/
def digitsVal (cs : List Char) : Nat :=
  cs.foldl (fun a c => a * 10 + (c.toNat - 48)) 0

/-- Parse the leading run of digits, NaN when there is none. -/
def parseDigits (cs : List Char) : JsNum :=
  let ds := cs.takeWhile Char.isDigit
  if ds.isEmpty then .nan else .int (digitsVal ds)

/-- JS `parseInt` on a string: skip leading spaces, optional sign, then a
leading run of decimal digits; NaN when no digit is found. -/
def parseIntStr (s : String) : JsNum :=
  match s.data.dropWhile (fun c => c == ' ') with
  | '-' :: rest =>
      match parseDigits rest with
      | .int n => .int (-n)
      | .nan => .nan
  | '+' :: rest => parseDigits rest
  | cs => parseDigits cs

/-- A JSON body field value as the handlers receive it: a number or a string. -/
inductive JsVal where
  | num (n : Int)
  | str (s : String)
deriving DecidableEq, Repr

/-- JS `parseInt` applied to a body value (numbers pass through unchanged
for the integral inputs the handlers deal in). -/
def parseIntJS : JsVal → JsNum
  | .num n => .int n
  | .str s => parseIntStr s

/-- String interpolation `${v}` of a body value. -/
def JsVal.display : JsVal → String
  | .num n => toString n
  | .str s => s

/-- One item entry of an owner's inventory record
(`{name, quantity, location, lastUpdated, displayName?}`). -/
structure Entry where
  name : String
  quantity : JsNum
  location : String
  lastUpdated : Nat
  displayName : Option String := none
deriving DecidableEq, Repr

/-- An owner's inventory record: a JS object keyed by item-location keys. -/
abbrev Record := List (String × Entry)

/-- JS object read `o[k]`. -/
def alistFind {α : Type} : List (String × α) → String → Option α
  | [], _ => none
  | (k', v) :: rest, k => if k' = k then some v else alistFind rest k

/-- JS object write `o[k] = v` (replaces in place, else appends). -/
def alistSet {α : Type} : List (String × α) → String → α → List (String × α)
  | [], k, v => [(k, v)]
  | (k', v') :: rest, k, v =>
      if k' = k then (k, v) :: rest else (k', v') :: alistSet rest k v

/-- JS `delete o[k]`. -/
def alistDel {α : Type} : List (String × α) → String → List (String × α)
  | [], _ => []
  | (k', v') :: rest, k =>
      if k' = k then alistDel rest k else (k', v') :: alistDel rest k

@[simp]
theorem alistFind_set_self {α : Type} (l : List (String × α)) (k : String) (v : α) :
    alistFind (alistSet l k v) k = some v := by
  induction l with
  | nil => simp [alistFind, alistSet]
  | cons p rest ih =>
      obtain ⟨k', v'⟩ := p
      by_cases h : k' = k <;> simp [alistFind, alistSet, h, ih]

@[simp]
theorem alistFind_set_ne {α : Type} (l : List (String × α)) (k k' : String) (v : α)
    (h : k ≠ k') : alistFind (alistSet l k v) k' = alistFind l k' := by
  induction l with
  | nil => simp [alistFind, alistSet, h]
  | cons p rest ih =>
      obtain ⟨k₀, v₀⟩ := p
      by_cases h₀ : k₀ = k
      · subst h₀; simp [alistFind, alistSet, h]
      · simp [alistFind, alistSet, h₀, ih]

@[simp]
theorem alistFind_del_self {α : Type} (l : List (String × α)) (k : String) :
    alistFind (alistDel l k) k = none := by
  induction l with
  | nil => simp [alistFind, alistDel]
  | cons p rest ih =>
      obtain ⟨k₀, v₀⟩ := p
      by_cases h₀ : k₀ = k <;> simp [alistFind, alistDel, h₀, ih]

/-- `toLowerCase()`: ASCII case folding (the handlers' key inputs), written
as a plain list map so that concrete keys reduce in the kernel. -/
def lowerStr (s : String) : String :=
  String.mk (s.data.map Char.toLower)

/-- Key derivation `${item.toLowerCase()}_${location.toLowerCase()}`. -/
def itemKey (item location : String) : String :=
  lowerStr item ++ "_" ++ lowerStr location

/-- JS `location || 'fridge'`: the default applies when the field is absent
or an empty (falsy) string. -/
def resolveLocation : Option String → String
  | none => "fridge"
  | some l => if l = "" then "fridge" else l

/-- Record-level effect of `POST /api/inventory/add` (src/server.js:126-137,
src/api/inventory/add.js:84-95): derive the key; accumulate
`parseInt(quantity)` into an existing entry, else create a new entry with
the parsed quantity and a fresh `lastUpdated` stamp. -/
def applyAdd (r : Record) (item : String) (quantity : JsVal) (location : Option String)
    (now : Nat) : Record :=
  match alistFind r (itemKey item (resolveLocation location)) with
  | some e =>
      alistSet r (itemKey item (resolveLocation location))
        { e with quantity := e.quantity.add (parseIntJS quantity) }
  | none =>
      alistSet r (itemKey item (resolveLocation location))
        { name := item, quantity := parseIntJS quantity,
          location := resolveLocation location, lastUpdated := now }

/-- Outcome of the remove mutation, mirroring the three response branches. -/
inductive RemoveOutcome where
  | removedAll (item location : String)
  | removedSome (item location : String) (e : Entry)
  | nothingFound (item location : String)
deriving DecidableEq, Repr

/-- Record-level effect of `POST /api/inventory/remove`
(src/server.js:162-181, src/api/inventory/remove.js:93-112): subtract
`parseInt(quantity)`; when the resulting quantity `<= 0` delete the entry,
otherwise store it with a fresh `lastUpdated`; report not-found when the
key is absent, leaving the record untouched. -/
def applyRemove (r : Record) (item : String) (quantity : JsVal) (location : Option String)
    (now : Nat) : Record × RemoveOutcome :=
  match alistFind r (itemKey item (resolveLocation location)) with
  | some e =>
      let q := e.quantity.sub (parseIntJS quantity)
      if q.le0 then
        (alistDel r (itemKey item (resolveLocation location)),
         .removedAll item (resolveLocation location))
      else
        (alistSet r (itemKey item (resolveLocation location))
           { e with quantity := q, lastUpdated := now },
         .removedSome item (resolveLocation location)
           { e with quantity := q, lastUpdated := now })
  | none => (r, .nothingFound item (resolveLocation location))

/-- Quantity lookup used by the check intents (src/server.js:378,402):
`inventory[itemKey] ? inventory[itemKey].quantity : 0`. -/
def applyQuery (r : Record) (item : String) (location : Option String) : JsNum :=
  match alistFind r (itemKey item (resolveLocation location)) with
  | some e => e.quantity
  | none => .int 0

/-! Storage layer (src/server.js:44-87, src/db.js:67-98).

The primary store is MongoDB, one document per owner keyed by the exact
`userId`; the fallback is one JSON file per owner under `user_data/`,
named after the sanitized `userId`.  `useMongoDb` selects the backend. -/

/-- Character class `[a-zA-Z0-9-_]` of the sanitizing regex. -/
def isSafeChar (c : Char) : Bool :=
  c.isAlpha || c.isDigit || c == '-' || c == '_'

/-- `userId.replace(/[^a-zA-Z0-9-_]/g, '_')` (src/server.js:45). -/
def safeUserId (userId : String) : String :=
  String.mk (userId.data.map (fun c => if isSafeChar c then c else '_'))

/-- `path.join(DATA_DIR, safeUserId + '.json')`, with the constant
directory prefix elided (src/server.js:44-47). -/
def getUserInventoryPath (userId : String) : String :=
  safeUserId userId ++ ".json"

/-- The fallback file store: parsed contents of `user_data/`, by file name. -/
abbrev FileStore := List (String × Record)

/-- The primary store: the `inventories` collection, one record per exact
`userId` (src/db.js:67-98). -/
abbrev MongoStore := List (String × Record)

/-- Process state of src/server.js: the backend-selection flag and the two
stores it may touch. -/
structure ServerState where
  useMongoDb : Bool
  db : MongoStore
  files : FileStore
deriving DecidableEq, Repr

/-- `loadUserInventory` (src/server.js:49-70): falsy userId loads nothing;
MongoDB path reads the owner's document (`{}` when absent); the fallback
reads and parses the owner's JSON file (`{}` when absent). -/
def loadUserInventory (s : ServerState) (userId : String) : Record :=
  if userId = "" then []
  else if s.useMongoDb then (alistFind s.db userId).getD []
  else (alistFind s.files (getUserInventoryPath userId)).getD []

/-- `saveUserInventory` (src/server.js:72-87): falsy userId saves nothing;
MongoDB path upserts the owner's document keyed by exact userId; the
fallback writes the owner's JSON file. -/
def saveUserInventory (s : ServerState) (userId : String) (inv : Record) : ServerState :=
  if userId = "" then s
  else if s.useMongoDb then { s with db := alistSet s.db userId inv }
  else { s with files := alistSet s.files (getUserInventoryPath userId) inv }

/-- REST responses of the add/remove handlers. -/
inductive RestResponse where
  | ok (message : String) (item : Option Entry)
  | badRequest (error : String)
  | notFound (error : String)
deriving DecidableEq, Repr

/-- `POST /api/inventory/add` (src/server.js:116-149): 400 when `item` is
falsy or `quantity` is absent; otherwise load, mutate via the add rule,
save, and answer with the stored entry. -/
def restAdd (s : ServerState) (userId item : String) (quantity : Option JsVal)
    (location : Option String) (now : Nat) : ServerState × RestResponse :=
  match quantity with
  | none => (s, .badRequest "Item name and quantity are required")
  | some q =>
      if item = "" then (s, .badRequest "Item name and quantity are required")
      else
        let inv := applyAdd (loadUserInventory s userId) item q location now
        (saveUserInventory s userId inv,
         .ok ("Added " ++ q.display ++ " " ++ item ++ "(s) to " ++ resolveLocation location)
           (alistFind inv (itemKey item (resolveLocation location))))

/-- `POST /api/inventory/remove` (src/server.js:152-186): 400 when `item`
is falsy or `quantity` absent; the not-found branch answers 404 and does
not save; the other branches save the mutated record. -/
def restRemove (s : ServerState) (userId item : String) (quantity : Option JsVal)
    (location : Option String) (now : Nat) : ServerState × RestResponse :=
  match quantity with
  | none => (s, .badRequest "Item name and quantity are required")
  | some q =>
      if item = "" then (s, .badRequest "Item name and quantity are required")
      else
        match applyRemove (loadUserInventory s userId) item q location now with
        | (inv, .removedAll it loc) =>
            (saveUserInventory s userId inv,
             .ok ("Removed all " ++ it ++ "(s) from " ++ loc) none)
        | (inv, .removedSome it loc e) =>
            (saveUserInventory s userId inv,
             .ok ("Removed " ++ q.display ++ " " ++ it ++ "(s) from " ++ loc) (some e))
        | (_, .nothingFound it loc) =>
            (s, .notFound ("No " ++ it ++ "(s) found in " ++ loc))

/-- Response of `GET /api/inventory/:item`: the stored entry, or the
zero-quantity placeholder object. -/
inductive QueryResponse where
  | found (e : Entry)
  | placeholder (name : String) (quantity : JsNum) (location : String) (message : String)
deriving DecidableEq, Repr

/-- `GET /api/inventory/:item` (src/server.js:189-211): lower-case the path
item, default the location, and answer the entry or a zero-quantity
placeholder; the handler never writes the store. -/
def restGetItem (s : ServerState) (userId itemParam : String)
    (locationQ : Option String) : ServerState × QueryResponse :=
  (s,
    match alistFind (loadUserInventory s userId)
        (lowerStr itemParam ++ "_" ++ lowerStr (resolveLocation locationQ)) with
    | some e => .found e
    | none =>
        .placeholder itemParam (.int 0) (resolveLocation locationQ)
          ("No " ++ itemParam ++ "(s) found in " ++ resolveLocation locationQ))

/-! Voice-intent handlers (src/server.js:287-536).

The Add/Remove intents parse the Quantity slot with
`isNaN(parseInt(raw)) ? 1 : parseInt(raw)` and work on the fixed key
`${item}_冷蔵庫`. -/

/-- `parseInt(request.intent.slots.Quantity.value)`: an absent slot value
stringifies to `"undefined"` and parses to NaN. -/
def parsedSlot : Option String → JsNum
  | none => .nan
  | some s => parseIntStr s

/-- Slot quantity after the NaN guard (src/server.js:289-291). -/
def slotQuantity (raw : Option String) : Int :=
  match parsedSlot raw with
  | .int n => n
  | .nan => 1

/-- Record-level effect of the AddCarrots/AddEggs intents
(src/server.js:287-327): accumulate into the existing entry or create one
with `name`, `displayName`, the slot quantity, location `冷蔵庫` and a
fresh stamp. -/
def alexaAdd (r : Record) (englishItem displayNm : String) (rawQty : Option String)
    (now : Nat) : Record :=
  match alistFind r (lowerStr englishItem ++ "_冷蔵庫") with
  | some e =>
      alistSet r (lowerStr englishItem ++ "_冷蔵庫")
        { e with quantity := e.quantity.add (.int (slotQuantity rawQty)) }
  | none =>
      alistSet r (lowerStr englishItem ++ "_冷蔵庫")
        { name := englishItem, displayName := some displayNm,
          quantity := .int (slotQuantity rawQty), location := "冷蔵庫", lastUpdated := now }

/-- Utterance classes of the Remove intents. -/
inductive AlexaRemoveOutcome where
  | allUsed
  | someUsed (remaining : JsNum)
  | alreadyEmpty
deriving DecidableEq, Repr

/-- Record-level effect of the RemoveCarrots/RemoveEggs intents
(src/server.js:417-476): subtract the slot quantity; delete on `<= 0`,
else stamp and keep; answer "already empty" untouched when absent. -/
def alexaRemove (r : Record) (englishItem : String) (rawQty : Option String)
    (now : Nat) : Record × AlexaRemoveOutcome :=
  match alistFind r (lowerStr englishItem ++ "_冷蔵庫") with
  | some e =>
      let q := e.quantity.sub (.int (slotQuantity rawQty))
      if q.le0 then (alistDel r (lowerStr englishItem ++ "_冷蔵庫"), .allUsed)
      else
        (alistSet r (lowerStr englishItem ++ "_冷蔵庫")
           { e with quantity := q, lastUpdated := now },
         .someUsed q)
  | none => (r, .alreadyEmpty)

/-! Storage lemmas shared by the claims below. -/

/-- Sanitized file names are injective up to sanitization: equal paths come
from equal sanitized ids. -/
theorem getUserInventoryPath_inj {A B : String}
    (h : getUserInventoryPath A = getUserInventoryPath B) : safeUserId A = safeUserId B := by
  unfold getUserInventoryPath at h
  have hd := congrArg String.data h
  simp only [String.data_append] at hd
  exact String.ext (List.append_cancel_right hd)

/-- Sanitization respects equality of ids. -/
theorem safeUserId_congr {A B : String} (h : A = B) : safeUserId A = safeUserId B := by
  rw [h]

/-- Saving a non-empty owner's record and loading it back returns it, on
either backend. -/
theorem load_save_self (s : ServerState) (u : String) (hu : u ≠ "") (r : Record) :
    loadUserInventory (saveUserInventory s u r) u = r := by
  unfold loadUserInventory saveUserInventory
  by_cases hm : s.useMongoDb <;> simp [hu, hm]

/-- A save under owner A leaves owner B's load unchanged, provided the
sanitized ids differ (which covers the file backend) or the MongoDB
backend is active and the ids themselves differ. -/
theorem load_save_other (s : ServerState) (A B : String) (r : Record)
    (h : safeUserId A ≠ safeUserId B ∨ (s.useMongoDb = true ∧ A ≠ B)) :
    loadUserInventory (saveUserInventory s A r) B = loadUserInventory s B := by
  have hAB : A ≠ B := by
    rcases h with h | ⟨_, h⟩
    · intro he; exact h (safeUserId_congr he)
    · exact h
  by_cases hA : A = ""
  · simp [saveUserInventory, hA]
  · by_cases hB : B = ""
    · simp [loadUserInventory, hB]
    · unfold loadUserInventory saveUserInventory
      by_cases hm : s.useMongoDb
      · simp [hA, hB, hm, alistFind_set_ne _ _ _ _ hAB]
      · have hpath : getUserInventoryPath A ≠ getUserInventoryPath B := by
          intro he
          rcases h with h | ⟨hm', _⟩
          · exact h (getUserInventoryPath_inj he)
          · simp [hm'] at hm
        simp [hA, hB, hm, alistFind_set_ne _ _ _ _ hpath]

/-- The add handler either leaves the state untouched (validation failure)
or performs exactly one save under the requesting owner. -/
theorem restAdd_state (s : ServerState) (u item : String) (q : Option JsVal)
    (loc : Option String) (now : Nat) :
    (restAdd s u item q loc now).1 = s ∨
    ∃ inv, (restAdd s u item q loc now).1 = saveUserInventory s u inv := by
  match q with
  | none => exact Or.inl rfl
  | some qv =>
      by_cases hi : item = ""
      · simp [restAdd, hi]
      · exact Or.inr ⟨applyAdd (loadUserInventory s u) item qv loc now, by simp [restAdd, hi]⟩

/-- The remove handler either leaves the state untouched (validation
failure or not-found) or performs exactly one save under the requesting
owner. -/
theorem restRemove_state (s : ServerState) (u item : String) (q : Option JsVal)
    (loc : Option String) (now : Nat) :
    (restRemove s u item q loc now).1 = s ∨
    ∃ inv, (restRemove s u item q loc now).1 = saveUserInventory s u inv := by
  match q with
  | none => exact Or.inl rfl
  | some qv =>
      by_cases hi : item = ""
      · simp [restRemove, hi]
      · unfold restRemove
        simp only [hi, if_neg, ite_false]
        rcases hrem : applyRemove (loadUserInventory s u) item qv loc now with ⟨inv, out⟩
        cases out with
        | removedAll it lc => exact Or.inr ⟨inv, by simp [hrem]⟩
        | removedSome it lc e => exact Or.inr ⟨inv, by simp [hrem]⟩
        | nothingFound it lc => exact Or.inl (by simp [hrem])

/-- The add handler's response is computed from the requesting owner's
loaded record alone: two states agreeing on that load answer alike. -/
theorem restAdd_resp_congr (s₁ s₂ : ServerState) (A item : String) (q : Option JsVal)
    (loc : Option String) (now : Nat)
    (hload : loadUserInventory s₁ A = loadUserInventory s₂ A) :
    (restAdd s₁ A item q loc now).2 = (restAdd s₂ A item q loc now).2 := by
  match q with
  | none => rfl
  | some qv => by_cases hi : item = "" <;> simp [restAdd, hi, hload]

/-- The requesting owner's record after an add is likewise determined by
that owner's loaded record alone. -/
theorem restAdd_selfload_congr (s₁ s₂ : ServerState) (A item : String) (q : Option JsVal)
    (loc : Option String) (now : Nat)
    (hload : loadUserInventory s₁ A = loadUserInventory s₂ A) :
    loadUserInventory (restAdd s₁ A item q loc now).1 A
      = loadUserInventory (restAdd s₂ A item q loc now).1 A := by
  match q with
  | none => simpa using hload
  | some qv =>
      by_cases hi : item = ""
      · simpa [restAdd, hi] using hload
      · by_cases hA : A = ""
        · simp [restAdd, hi, loadUserInventory, hA]
        · simp [restAdd, hi, load_save_self _ A hA, hload]

/-- The remove handler's response is computed from the requesting owner's
loaded record alone. -/
theorem restRemove_resp_congr (s₁ s₂ : ServerState) (A item : String) (q : Option JsVal)
    (loc : Option String) (now : Nat)
    (hload : loadUserInventory s₁ A = loadUserInventory s₂ A) :
    (restRemove s₁ A item q loc now).2 = (restRemove s₂ A item q loc now).2 := by
  match q with
  | none => rfl
  | some qv =>
      by_cases hi : item = ""
      · simp [restRemove, hi]
      · unfold restRemove
        rw [hload]
        simp only [hi, ite_false]
        rcases hrem : applyRemove (loadUserInventory s₂ A) item qv loc now with ⟨inv, out⟩
        cases out <;> simp [hrem]

/-- The requesting owner's record after a remove is likewise determined by
that owner's loaded record alone. -/
theorem restRemove_selfload_congr (s₁ s₂ : ServerState) (A item : String) (q : Option JsVal)
    (loc : Option String) (now : Nat)
    (hload : loadUserInventory s₁ A = loadUserInventory s₂ A) :
    loadUserInventory (restRemove s₁ A item q loc now).1 A
      = loadUserInventory (restRemove s₂ A item q loc now).1 A := by
  match q with
  | none => simpa using hload
  | some qv =>
      by_cases hi : item = ""
      · simpa [restRemove, hi] using hload
      · unfold restRemove
        rw [hload]
        simp only [hi, ite_false]
        rcases hrem : applyRemove (loadUserInventory s₂ A) item qv loc now with ⟨inv, out⟩
        by_cases hA : A = ""
        · cases out <;> simp [hrem, loadUserInventory, hA]
        · cases out <;> simp [hrem, load_save_self _ A hA, hload]

/-- The single-item query's response is computed from the requesting
owner's loaded record alone. -/
theorem restGetItem_resp_congr (s₁ s₂ : ServerState) (A itemParam : String)
    (locQ : Option String)
    (hload : loadUserInventory s₁ A = loadUserInventory s₂ A) :
    (restGetItem s₁ A itemParam locQ).2 = (restGetItem s₂ A itemParam locQ).2 := by
  simp [restGetItem, hload]

/-! The claims. -/

/-- Claim C1, counterexample: with the fallback active, `save` then `load`
for the empty owner id does NOT return the saved Record — both are guarded
by `if (!userId)`, so the save is dropped and the load returns the empty
record, refuting the claim's quantification over every owner id. -/
theorem c1_counterexample :
    ServerState.useMongoDb ⟨false, [], []⟩ = false ∧
    loadUserInventory (saveUserInventory ⟨false, [], []⟩ ""
        [("eggs_fridge", ⟨"eggs", .int 2, "fridge", 3, none⟩)]) ""
      ≠ [("eggs_fridge", ⟨"eggs", .int 2, "fridge", 3, none⟩)] :=
  ⟨rfl, by decide⟩

/-- Claim C1 (amended): with the primary store unreachable (fallback file
storage), `save(ownerId, record)` followed by `load(ownerId)` within one
process lifetime returns the saved Record unchanged, for every NON-EMPTY
owner id. -/
theorem c1_fallback_save_load_roundtrip (s : ServerState) (_hfb : s.useMongoDb = false)
    (u : String) (hu : u ≠ "") (r : Record) :
    loadUserInventory (saveUserInventory s u r) u = r :=
  load_save_self s u hu r

/-- Claim C1 witness: the round trip at owner "alice" on a degraded store. -/
theorem c1_fallback_save_load_roundtrip_witness :
    ServerState.useMongoDb ⟨false, [], []⟩ = false ∧ ("alice" : String) ≠ "" ∧
    loadUserInventory (saveUserInventory ⟨false, [], []⟩ "alice"
        [("eggs_fridge", ⟨"eggs", .int 2, "fridge", 3, none⟩)]) "alice"
      = [("eggs_fridge", ⟨"eggs", .int 2, "fridge", 3, none⟩)] :=
  ⟨rfl, by decide,
    c1_fallback_save_load_roundtrip ⟨false, [], []⟩ rfl "alice" (by decide) _⟩

/-- Claim C2, counterexample: the distinct owner ids "alice.1" and
"alice_1" sanitize to the same file name, so in the fallback path an add
under "alice.1" overwrites "alice_1"'s stored Record — and reads it: the
add's response reports quantity 13 = 8 + 5, built from owner "alice_1"'s
entry, and a plain query under "alice.1" returns "alice_1"'s entry
outright. -/
theorem c2_counterexample :
    ("alice.1" : String) ≠ "alice_1" ∧
    loadUserInventory
        (restAdd ⟨false, [], [("alice_1.json", [("eggs_fridge", ⟨"eggs", .int 8, "fridge", 0, none⟩)])]⟩
          "alice.1" "eggs" (some (.num 5)) (some "fridge") 7).1 "alice_1"
      ≠ loadUserInventory
          ⟨false, [], [("alice_1.json", [("eggs_fridge", ⟨"eggs", .int 8, "fridge", 0, none⟩)])]⟩
          "alice_1" ∧
    (restAdd ⟨false, [], [("alice_1.json", [("eggs_fridge", ⟨"eggs", .int 8, "fridge", 0, none⟩)])]⟩
        "alice.1" "eggs" (some (.num 5)) (some "fridge") 7).2
      = .ok "Added 5 eggs(s) to fridge" (some ⟨"eggs", .int 13, "fridge", 0, none⟩) ∧
    (restGetItem ⟨false, [], [("alice_1.json", [("eggs_fridge", ⟨"eggs", .int 8, "fridge", 0, none⟩)])]⟩
        "alice.1" "eggs" (some "fridge")).2 = .found ⟨"eggs", .int 8, "fridge", 0, none⟩ :=
  ⟨by decide, by decide, by decide, by decide⟩

/-- Claim C2 (amended): whenever the sanitized ids differ (the guarantee
available on the file fallback path), or the primary MongoDB path is
active and A ≠ B, the add, remove and query operations under owner A
(1) leave owner B's stored Record unchanged, and (2) never read from it:
their responses and owner A's own resulting Record are invariant under an
arbitrary replacement of owner B's stored Record. -/
theorem c2_owner_isolation (s : ServerState) (A B item : String) (q : Option JsVal)
    (loc : Option String) (itemParam : String) (locQ : Option String) (now : Nat)
    (rB : Record)
    (h : safeUserId A ≠ safeUserId B ∨ (s.useMongoDb = true ∧ A ≠ B)) :
    loadUserInventory (restAdd s A item q loc now).1 B = loadUserInventory s B ∧
    loadUserInventory (restRemove s A item q loc now).1 B = loadUserInventory s B ∧
    loadUserInventory (restGetItem s A itemParam locQ).1 B = loadUserInventory s B ∧
    (restAdd (saveUserInventory s B rB) A item q loc now).2 = (restAdd s A item q loc now).2 ∧
    loadUserInventory (restAdd (saveUserInventory s B rB) A item q loc now).1 A
        = loadUserInventory (restAdd s A item q loc now).1 A ∧
    (restRemove (saveUserInventory s B rB) A item q loc now).2
        = (restRemove s A item q loc now).2 ∧
    loadUserInventory (restRemove (saveUserInventory s B rB) A item q loc now).1 A
        = loadUserInventory (restRemove s A item q loc now).1 A ∧
    (restGetItem (saveUserInventory s B rB) A itemParam locQ).2
        = (restGetItem s A itemParam locQ).2 := by
  have h' : safeUserId B ≠ safeUserId A ∨ (s.useMongoDb = true ∧ B ≠ A) := by
    rcases h with h | ⟨hm, hne⟩
    · exact Or.inl (Ne.symm h)
    · exact Or.inr ⟨hm, Ne.symm hne⟩
  have hload := load_save_other s B A rB h'
  refine ⟨?_, ?_, rfl,
    restAdd_resp_congr _ _ _ _ _ _ _ hload,
    restAdd_selfload_congr _ _ _ _ _ _ _ hload,
    restRemove_resp_congr _ _ _ _ _ _ _ hload,
    restRemove_selfload_congr _ _ _ _ _ _ _ hload,
    restGetItem_resp_congr _ _ _ _ _ hload⟩
  · rcases restAdd_state s A item q loc now with hs | ⟨inv, hs⟩
    · rw [hs]
    · rw [hs, load_save_other s A B inv h]
  · rcases restRemove_state s A item q loc now with hs | ⟨inv, hs⟩
    · rw [hs]
    · rw [hs, load_save_other s A B inv h]

/-- Claim C2 witness: write- and read-isolation of owners "alice" and
"bob" on the fallback store, with "bob" owning 8 eggs. -/
theorem c2_owner_isolation_witness :
    (safeUserId "alice" ≠ safeUserId "bob" ∨
      (ServerState.useMongoDb ⟨false, [], []⟩ = true ∧ ("alice" : String) ≠ "bob")) ∧
    (loadUserInventory (restAdd ⟨false, [], []⟩ "alice" "eggs" (some (.num 5)) none 1).1 "bob"
        = loadUserInventory ⟨false, [], []⟩ "bob" ∧
     loadUserInventory (restRemove ⟨false, [], []⟩ "alice" "eggs" (some (.num 5)) none 1).1 "bob"
        = loadUserInventory ⟨false, [], []⟩ "bob" ∧
     loadUserInventory (restGetItem ⟨false, [], []⟩ "alice" "eggs" none).1 "bob"
        = loadUserInventory ⟨false, [], []⟩ "bob" ∧
     (restAdd (saveUserInventory ⟨false, [], []⟩ "bob"
          [("eggs_fridge", ⟨"eggs", .int 8, "fridge", 0, none⟩)]) "alice" "eggs"
          (some (.num 5)) none 1).2
        = (restAdd ⟨false, [], []⟩ "alice" "eggs" (some (.num 5)) none 1).2 ∧
     loadUserInventory (restAdd (saveUserInventory ⟨false, [], []⟩ "bob"
          [("eggs_fridge", ⟨"eggs", .int 8, "fridge", 0, none⟩)]) "alice" "eggs"
          (some (.num 5)) none 1).1 "alice"
        = loadUserInventory (restAdd ⟨false, [], []⟩ "alice" "eggs" (some (.num 5)) none 1).1
            "alice" ∧
     (restRemove (saveUserInventory ⟨false, [], []⟩ "bob"
          [("eggs_fridge", ⟨"eggs", .int 8, "fridge", 0, none⟩)]) "alice" "eggs"
          (some (.num 5)) none 1).2
        = (restRemove ⟨false, [], []⟩ "alice" "eggs" (some (.num 5)) none 1).2 ∧
     loadUserInventory (restRemove (saveUserInventory ⟨false, [], []⟩ "bob"
          [("eggs_fridge", ⟨"eggs", .int 8, "fridge", 0, none⟩)]) "alice" "eggs"
          (some (.num 5)) none 1).1 "alice"
        = loadUserInventory (restRemove ⟨false, [], []⟩ "alice" "eggs" (some (.num 5)) none 1).1
            "alice" ∧
     (restGetItem (saveUserInventory ⟨false, [], []⟩ "bob"
          [("eggs_fridge", ⟨"eggs", .int 8, "fridge", 0, none⟩)]) "alice" "eggs" none).2
        = (restGetItem ⟨false, [], []⟩ "alice" "eggs" none).2) :=
  ⟨Or.inl (by decide),
    c2_owner_isolation ⟨false, [], []⟩ "alice" "bob" "eggs" (some (.num 5)) none "eggs" none 1
      [("eggs_fridge", ⟨"eggs", .int 8, "fridge", 0, none⟩)] (Or.inl (by decide))⟩

/-- Claim C3, counterexample: in the REST add path a non-numeric quantity
is NOT treated as 1 — `parseInt("not-a-number")` is NaN and the entry is
created with quantity NaN, so the two adds differ; and a missing quantity
is rejected with 400, blocking the operation. -/
theorem c3_counterexample :
    applyAdd [] "eggs" (.str "not-a-number") (some "fridge") 0
      ≠ applyAdd [] "eggs" (.num 1) (some "fridge") 0 ∧
    alistFind (applyAdd [] "eggs" (.str "not-a-number") (some "fridge") 0) "eggs_fridge"
      = some ⟨"eggs", .nan, "fridge", 0, none⟩ ∧
    restAdd ⟨false, [], []⟩ "alice" "eggs" none (some "fridge") 0
      = (⟨false, [], []⟩, .badRequest "Item name and quantity are required") :=
  ⟨by decide, by decide, by decide⟩

/-- Claim C3 (amended): the default-to-1 rule lives only in the
voice-intent add handlers — a Quantity slot whose parse is NaN behaves
identically to the slot "1" — while the REST add handler rejects a missing
quantity with a 400 error. -/
theorem c3_voice_quantity_defaults (r : Record) (englishItem displayNm : String)
    (raw : Option String) (now : Nat) (s : ServerState) (u item : String)
    (loc : Option String) (t : Nat) (h : parsedSlot raw = .nan) :
    alexaAdd r englishItem displayNm raw now = alexaAdd r englishItem displayNm (some "1") now ∧
    restAdd s u item none loc t = (s, .badRequest "Item name and quantity are required") := by
  constructor
  · have h1 : slotQuantity raw = 1 := by unfold slotQuantity; rw [h]
    have h2 : slotQuantity (some "1") = 1 := by decide
    unfold alexaAdd
    rw [h1, h2]
  · rfl

/-- Claim C3 witness: the voice add with slot "not-a-number" equals the
voice add with slot "1". -/
theorem c3_voice_quantity_defaults_witness :
    parsedSlot (some "not-a-number") = .nan ∧
    alexaAdd [] "eggs" "たまご" (some "not-a-number") 4
      = alexaAdd [] "eggs" "たまご" (some "1") 4 ∧
    restAdd ⟨false, [], []⟩ "alice" "eggs" none none 0
      = (⟨false, [], []⟩, .badRequest "Item name and quantity are required") :=
  ⟨by decide,
    (c3_voice_quantity_defaults [] "eggs" "たまご" (some "not-a-number") 4 ⟨false, [], []⟩
      "alice" "eggs" none 0 (by decide)).1,
    (c3_voice_quantity_defaults [] "eggs" "たまご" (some "not-a-number") 4 ⟨false, [], []⟩
      "alice" "eggs" none 0 (by decide)).2⟩

/-- Claim C4, counterexample: the accumulating branch of add does NOT
stamp `lastUpdated` — adding 2 eggs at time 5 to an entry last updated at
time 0 leaves `lastUpdated` at 0. -/
theorem c4_counterexample :
    alistFind (applyAdd [("eggs_fridge", ⟨"eggs", .int 3, "fridge", 0, none⟩)]
        "eggs" (.num 2) (some "fridge") 5) "eggs_fridge"
      = some ⟨"eggs", .int 5, "fridge", 0, none⟩ ∧ (0 : Nat) ≠ 5 :=
  ⟨by decide, by decide⟩

/-- Claim C4 (amended): `applyAdd` stamps `lastUpdated` only on the branch
that creates a new entry; the accumulate branch leaves the existing stamp
unchanged; `applyRemove`'s decrementing branch does stamp it. -/
theorem c4_lastUpdated_stamping (r : Record) (item : String) (q : JsVal)
    (loc : Option String) (now : Nat) (e : Entry) :
    (alistFind r (itemKey item (resolveLocation loc)) = none →
      (alistFind (applyAdd r item q loc now) (itemKey item (resolveLocation loc))).map
        Entry.lastUpdated = some now) ∧
    (alistFind r (itemKey item (resolveLocation loc)) = some e →
      (alistFind (applyAdd r item q loc now) (itemKey item (resolveLocation loc))).map
        Entry.lastUpdated = some e.lastUpdated) ∧
    (alistFind r (itemKey item (resolveLocation loc)) = some e →
      (e.quantity.sub (parseIntJS q)).le0 = false →
      (alistFind (applyRemove r item q loc now).1 (itemKey item (resolveLocation loc))).map
        Entry.lastUpdated = some now) := by
  refine ⟨?_, ?_, ?_⟩
  · intro habs
    simp [applyAdd, habs]
  · intro he
    simp [applyAdd, he]
  · intro he hkeep
    simp [applyRemove, he, hkeep]

/-- Claim C4 witness: create stamps now = 5, accumulate keeps 0, remove's
decrement stamps now = 5. -/
theorem c4_lastUpdated_stamping_witness :
    (alistFind (applyAdd [] "eggs" (.num 2) (some "fridge") 5) "eggs_fridge").map
        Entry.lastUpdated = some 5 ∧
    (alistFind (applyAdd [("eggs_fridge", ⟨"eggs", .int 3, "fridge", 0, none⟩)]
        "eggs" (.num 2) (some "fridge") 5) "eggs_fridge").map Entry.lastUpdated = some 0 ∧
    (alistFind (applyRemove [("eggs_fridge", ⟨"eggs", .int 3, "fridge", 0, none⟩)]
        "eggs" (.num 2) (some "fridge") 5).1 "eggs_fridge").map Entry.lastUpdated = some 5 :=
  ⟨(c4_lastUpdated_stamping [] "eggs" (.num 2) (some "fridge") 5
      ⟨"eggs", .int 3, "fridge", 0, none⟩).1 (by decide),
   (c4_lastUpdated_stamping [("eggs_fridge", ⟨"eggs", .int 3, "fridge", 0, none⟩)] "eggs"
      (.num 2) (some "fridge") 5 ⟨"eggs", .int 3, "fridge", 0, none⟩).2.1 (by decide),
   (c4_lastUpdated_stamping [("eggs_fridge", ⟨"eggs", .int 3, "fridge", 0, none⟩)] "eggs"
      (.num 2) (some "fridge") 5 ⟨"eggs", .int 3, "fridge", 0, none⟩).2.2 (by decide) (by decide)⟩

/-- Claim C5: removing n ≥ current quantity deletes the entry (the key is
absent afterwards) and reports exhaustion; removing 0 < n < current
retains the entry with quantity decremented and `lastUpdated` stamped. -/
theorem c5_remove_floors (r : Record) (item : String) (loc : Option String) (now : Nat)
    (e : Entry) (qcur n : Int)
    (he : alistFind r (itemKey item (resolveLocation loc)) = some e)
    (hq : e.quantity = .int qcur) :
    (qcur ≤ n →
      alistFind (applyRemove r item (.num n) loc now).1 (itemKey item (resolveLocation loc))
          = none ∧
      (applyRemove r item (.num n) loc now).2 = .removedAll item (resolveLocation loc)) ∧
    (0 < n → n < qcur →
      (applyRemove r item (.num n) loc now).1
          = alistSet r (itemKey item (resolveLocation loc))
              { e with quantity := .int (qcur - n), lastUpdated := now } ∧
      (applyRemove r item (.num n) loc now).2
          = .removedSome item (resolveLocation loc)
              { e with quantity := .int (qcur - n), lastUpdated := now }) := by
  constructor
  · intro hge
    have hle : (JsNum.int (qcur - n)).le0 = true := by
      simp [JsNum.le0]; omega
    simp [applyRemove, he, hq, JsNum.sub, parseIntJS, hle]
  · intro hpos hlt
    have hle : (JsNum.int (qcur - n)).le0 = false := by
      simp [JsNum.le0]; omega
    simp [applyRemove, he, hq, JsNum.sub, parseIntJS, hle]

/-- Claim C5 witness: removing 5 of 3 eggs deletes the entry; removing 1
of 3 leaves 2 with a fresh stamp. -/
theorem c5_remove_floors_witness :
    alistFind [("eggs_fridge", (⟨"eggs", .int 3, "fridge", 0, none⟩ : Entry))]
        (itemKey "eggs" (resolveLocation (some "fridge")))
        = some ⟨"eggs", .int 3, "fridge", 0, none⟩ ∧
    ((3 : Int) ≤ 5 →
      alistFind (applyRemove [("eggs_fridge", ⟨"eggs", .int 3, "fridge", 0, none⟩)]
          "eggs" (.num 5) (some "fridge") 9).1 (itemKey "eggs" (resolveLocation (some "fridge")))
          = none ∧
      (applyRemove [("eggs_fridge", ⟨"eggs", .int 3, "fridge", 0, none⟩)]
          "eggs" (.num 5) (some "fridge") 9).2
          = .removedAll "eggs" (resolveLocation (some "fridge"))) ∧
    ((0 : Int) < 1 → (1 : Int) < 3 →
      (applyRemove [("eggs_fridge", ⟨"eggs", .int 3, "fridge", 0, none⟩)]
          "eggs" (.num 1) (some "fridge") 9).1
          = alistSet [("eggs_fridge", ⟨"eggs", .int 3, "fridge", 0, none⟩)]
              (itemKey "eggs" (resolveLocation (some "fridge")))
              ⟨"eggs", .int 2, "fridge", 9, none⟩ ∧
      (applyRemove [("eggs_fridge", ⟨"eggs", .int 3, "fridge", 0, none⟩)]
          "eggs" (.num 1) (some "fridge") 9).2
          = .removedSome "eggs" (resolveLocation (some "fridge"))
              ⟨"eggs", .int 2, "fridge", 9, none⟩) :=
  ⟨by decide,
   fun h => (c5_remove_floors [("eggs_fridge", ⟨"eggs", .int 3, "fridge", 0, none⟩)]
      "eggs" (some "fridge") 9 ⟨"eggs", .int 3, "fridge", 0, none⟩ 3 5 (by decide) rfl).1 h,
   fun h1 h2 => (c5_remove_floors [("eggs_fridge", ⟨"eggs", .int 3, "fridge", 0, none⟩)]
      "eggs" (some "fridge") 9 ⟨"eggs", .int 3, "fridge", 0, none⟩ 3 1 (by decide) rfl).2 h1 h2⟩

/-- Claim C6: adding to an absent key creates an entry with exactly the
given quantity; adding to a present key accumulates the sum; keys derived
from calls differing only in the case of name or location coincide; the
double add of 3 then 2 carrots yields quantity 5. -/
theorem c6_add_accumulates (r : Record) (item : String) (m : Int) (loc : Option String)
    (now : Nat) (e : Entry) (q : Int) (n1 l1 n2 l2 : String) :
    (alistFind r (itemKey item (resolveLocation loc)) = none →
      alistFind (applyAdd r item (.num m) loc now) (itemKey item (resolveLocation loc))
        = some ⟨item, .int m, resolveLocation loc, now, none⟩) ∧
    (alistFind r (itemKey item (resolveLocation loc)) = some e → e.quantity = .int q →
      alistFind (applyAdd r item (.num m) loc now) (itemKey item (resolveLocation loc))
        = some { e with quantity := .int (q + m) }) ∧
    (lowerStr n1 = lowerStr n2 → lowerStr l1 = lowerStr l2 → itemKey n1 l1 = itemKey n2 l2) ∧
    alistFind (applyAdd (applyAdd [] "carrots" (.num 3) (some "fridge") 1)
        "carrots" (.num 2) (some "fridge") 2) "carrots_fridge"
      = some ⟨"carrots", .int 5, "fridge", 1, none⟩ := by
  refine ⟨?_, ?_, ?_, by decide⟩
  · intro habs
    simp [applyAdd, habs, parseIntJS]
  · intro he hq
    simp [applyAdd, he, hq, parseIntJS, JsNum.add]
  · intro hn hl
    unfold itemKey
    rw [hn, hl]

/-- Claim C6 witness: creation with quantity 3, case-insensitive keys, and
the 3 + 2 = 5 double add. -/
theorem c6_add_accumulates_witness :
    (alistFind ([] : Record) (itemKey "carrots" (resolveLocation (some "fridge"))) = none →
      alistFind (applyAdd [] "carrots" (.num 3) (some "fridge") 1)
          (itemKey "carrots" (resolveLocation (some "fridge")))
        = some ⟨"carrots", .int 3, resolveLocation (some "fridge"), 1, none⟩) ∧
    (lowerStr "Carrots" = lowerStr "carrots" → lowerStr "Fridge" = lowerStr "fridge" →
      itemKey "Carrots" "Fridge" = itemKey "carrots" "fridge") ∧
    alistFind (applyAdd (applyAdd [] "carrots" (.num 3) (some "fridge") 1)
        "carrots" (.num 2) (some "fridge") 2) "carrots_fridge"
      = some ⟨"carrots", .int 5, "fridge", 1, none⟩ :=
  ⟨(c6_add_accumulates [] "carrots" 3 (some "fridge") 1 ⟨"", .nan, "", 0, none⟩ 0
      "Carrots" "Fridge" "carrots" "fridge").1,
   (c6_add_accumulates [] "carrots" 3 (some "fridge") 1 ⟨"", .nan, "", 0, none⟩ 0
      "Carrots" "Fridge" "carrots" "fridge").2.2.1,
   (c6_add_accumulates [] "carrots" 3 (some "fridge") 1 ⟨"", .nan, "", 0, none⟩ 0
      "Carrots" "Fridge" "carrots" "fridge").2.2.2⟩

/-- Claim C7: a remove whose derived key is absent answers 404 with an
error body and leaves the server state completely unchanged (nothing is
saved); the voice remove answers the "already empty" utterance with the
record untouched. -/
theorem c7_remove_not_found (s : ServerState) (u item : String) (q : JsVal)
    (loc : Option String) (now : Nat) (r : Record) (englishItem : String)
    (raw : Option String)
    (hitem : item ≠ "")
    (habs : alistFind (loadUserInventory s u) (itemKey item (resolveLocation loc)) = none)
    (habs2 : alistFind r (lowerStr englishItem ++ "_冷蔵庫") = none) :
    restRemove s u item (some q) loc now
      = (s, .notFound ("No " ++ item ++ "(s) found in " ++ resolveLocation loc)) ∧
    alexaRemove r englishItem raw now = (r, .alreadyEmpty) := by
  constructor
  · simp [restRemove, hitem, applyRemove, habs]
  · simp [alexaRemove, habs2]

/-- Claim C7 witness: removing eggs from an empty store answers 404 and
changes nothing; the voice remove answers "already empty". -/
theorem c7_remove_not_found_witness :
    ("eggs" : String) ≠ "" ∧
    alistFind (loadUserInventory ⟨false, [], []⟩ "alice")
        (itemKey "eggs" (resolveLocation none)) = none ∧
    alistFind ([] : Record) (lowerStr "eggs" ++ "_冷蔵庫") = none ∧
    restRemove ⟨false, [], []⟩ "alice" "eggs" (some (.num 2)) none 3
      = (⟨false, [], []⟩, .notFound ("No " ++ "eggs" ++ "(s) found in " ++ resolveLocation none)) ∧
    alexaRemove [] "eggs" (some "2") 3 = ([], .alreadyEmpty) := by
  refine ⟨by decide, by decide, by decide, ?_, ?_⟩
  · exact (c7_remove_not_found ⟨false, [], []⟩ "alice" "eggs" (.num 2) none 3 [] "eggs"
      (some "2") (by decide) (by decide) (by decide)).1
  · exact (c7_remove_not_found ⟨false, [], []⟩ "alice" "eggs" (.num 2) none 3 [] "eggs"
      (some "2") (by decide) (by decide) (by decide)).2

/-- Claim C8: a query on an absent key yields quantity 0 and never fails —
the check-intent lookup answers 0 and the REST single-item endpoint
answers the zero-quantity placeholder object; in particular
`applyQuery {} "bananas" "fridge" = 0`. -/
theorem c8_query_absent_zero (r : Record) (item : String) (loc : Option String)
    (s : ServerState) (u itemParam : String) (locQ : Option String)
    (habs : alistFind r (itemKey item (resolveLocation loc)) = none)
    (habs2 : alistFind (loadUserInventory s u)
        (lowerStr itemParam ++ "_" ++ lowerStr (resolveLocation locQ)) = none) :
    applyQuery r item loc = .int 0 ∧
    restGetItem s u itemParam locQ
      = (s, .placeholder itemParam (.int 0) (resolveLocation locQ)
          ("No " ++ itemParam ++ "(s) found in " ++ resolveLocation locQ)) ∧
    applyQuery [] "bananas" (some "fridge") = .int 0 := by
  refine ⟨?_, ?_, by decide⟩
  · simp [applyQuery, habs]
  · simp [restGetItem, habs2]

/-- Claim C8 witness: querying bananas in an empty store yields 0 and the
placeholder response. -/
theorem c8_query_absent_zero_witness :
    alistFind ([] : Record) (itemKey "bananas" (resolveLocation (some "fridge"))) = none ∧
    alistFind (loadUserInventory ⟨false, [], []⟩ "alice")
        (lowerStr "bananas" ++ "_" ++ lowerStr (resolveLocation (some "fridge"))) = none ∧
    applyQuery [] "bananas" (some "fridge") = .int 0 ∧
    restGetItem ⟨false, [], []⟩ "alice" "bananas" (some "fridge")
      = (⟨false, [], []⟩, .placeholder "bananas" (.int 0) (resolveLocation (some "fridge"))
          ("No " ++ "bananas" ++ "(s) found in " ++ resolveLocation (some "fridge"))) := by
  refine ⟨by decide, by decide, ?_, ?_⟩
  · exact (c8_query_absent_zero [] "bananas" (some "fridge") ⟨false, [], []⟩ "alice" "bananas"
      (some "fridge") (by decide) (by decide)).1
  · exact (c8_query_absent_zero [] "bananas" (some "fridge") ⟨false, [], []⟩ "alice" "bananas"
      (some "fridge") (by decide) (by decide)).2.1

/-- Claim C9: removing a negative quantity n from an entry with positive
quantity q retains the entry with the strictly larger quantity q - n and a
fresh stamp — the subtraction is not clamped and the request not rejected. -/
theorem c9_negative_remove_increases (r : Record) (item : String) (loc : Option String)
    (now : Nat) (e : Entry) (qcur n : Int)
    (he : alistFind r (itemKey item (resolveLocation loc)) = some e)
    (hq : e.quantity = .int qcur) (hpos : 0 < qcur) (hneg : n < 0) :
    (applyRemove r item (.num n) loc now).1
      = alistSet r (itemKey item (resolveLocation loc))
          { e with quantity := .int (qcur - n), lastUpdated := now } ∧
    (applyRemove r item (.num n) loc now).2
      = .removedSome item (resolveLocation loc)
          { e with quantity := .int (qcur - n), lastUpdated := now } ∧
    qcur < qcur - n := by
  have hle : (JsNum.int (qcur - n)).le0 = false := by
    simp [JsNum.le0]; omega
  refine ⟨?_, ?_, by omega⟩ <;> simp [applyRemove, he, hq, JsNum.sub, parseIntJS, hle]

/-- Claim C9 witness: removing -2 of 4 eggs stores 6. -/
theorem c9_negative_remove_increases_witness :
    alistFind [("eggs_fridge", (⟨"eggs", .int 4, "fridge", 0, none⟩ : Entry))]
        (itemKey "eggs" (resolveLocation (some "fridge")))
        = some ⟨"eggs", .int 4, "fridge", 0, none⟩ ∧
    (0 : Int) < 4 ∧ (-2 : Int) < 0 ∧
    (applyRemove [("eggs_fridge", ⟨"eggs", .int 4, "fridge", 0, none⟩)]
        "eggs" (.num (-2)) (some "fridge") 6).1
      = alistSet [("eggs_fridge", ⟨"eggs", .int 4, "fridge", 0, none⟩)]
          (itemKey "eggs" (resolveLocation (some "fridge"))) ⟨"eggs", .int 6, "fridge", 6, none⟩ ∧
    (4 : Int) < 6 :=
  ⟨by decide, by decide, by decide,
   (c9_negative_remove_increases [("eggs_fridge", ⟨"eggs", .int 4, "fridge", 0, none⟩)]
      "eggs" (some "fridge") 6 ⟨"eggs", .int 4, "fridge", 0, none⟩ 4 (-2)
      (by decide) rfl (by decide) (by decide)).1,
   by decide⟩

/-- Claim C10: when a later add hits an existing entry (under the
case-insensitive key, whatever casing the later call uses), the resulting
entry differs only in quantity — name, location, displayName and
lastUpdated keep the values written by the first creating add. -/
theorem c10_accumulate_preserves_fields (r : Record) (name1 name2 : String)
    (loc1 loc2 : Option String) (q : JsVal) (now : Nat) (e : Entry)
    (hn : lowerStr name2 = lowerStr name1)
    (hl : lowerStr (resolveLocation loc2) = lowerStr (resolveLocation loc1))
    (he : alistFind r (itemKey name1 (resolveLocation loc1)) = some e) :
    alistFind (applyAdd r name2 q loc2 now) (itemKey name1 (resolveLocation loc1))
      = some { e with quantity := e.quantity.add (parseIntJS q) } := by
  have hkey : itemKey name2 (resolveLocation loc2) = itemKey name1 (resolveLocation loc1) := by
    unfold itemKey; rw [hn, hl]
  simp [applyAdd, hkey, he]

/-- Claim C10 witness: an upper-case later add accumulates into the
"Carrots"/"Fridge" entry and preserves its original casing and stamp. -/
theorem c10_accumulate_preserves_fields_witness :
    lowerStr "CARROTS" = lowerStr "carrots" ∧
    lowerStr (resolveLocation (some "FRIDGE")) = lowerStr (resolveLocation (some "fridge")) ∧
    alistFind [("carrots_fridge", (⟨"Carrots", .int 3, "Fridge", 1, none⟩ : Entry))]
        (itemKey "carrots" (resolveLocation (some "fridge")))
        = some ⟨"Carrots", .int 3, "Fridge", 1, none⟩ ∧
    alistFind (applyAdd [("carrots_fridge", ⟨"Carrots", .int 3, "Fridge", 1, none⟩)]
        "CARROTS" (.num 2) (some "FRIDGE") 8) (itemKey "carrots" (resolveLocation (some "fridge")))
      = some ⟨"Carrots", .int 5, "Fridge", 1, none⟩ :=
  ⟨by decide, by decide, by decide,
   c10_accumulate_preserves_fields [("carrots_fridge", ⟨"Carrots", .int 3, "Fridge", 1, none⟩)]
     "carrots" "CARROTS" (some "fridge") (some "FRIDGE") (.num 2) 8
     ⟨"Carrots", .int 3, "Fridge", 1, none⟩ (by decide) (by decide) (by decide)⟩

end InvTrack
